import Mathlib

/-!
Verification development for the runreveal event-shipping pipeline.

It contains shallow embeddings of
* the batching/acknowledgment layer's data model (modelled from the
  specification: the batch package implementation is not among the
  provided sources, only its tests are),
* the journald source's high-watermark and receive-loop logic,
* the Windows event XML-to-JSON transcoder,
* the MQTT destination's send path,
together with theorems settling the frozen claims about them.
-/

namespace Cheetah

/-- Go error values relevant to the pipeline.  A Go `nil` error is
`Option.none` at use sites; `dontAck` and `deadlock` model the two
distinguished sentinel errors of the batch package (`ErrDontAck`,
`errDeadlock`); every other error value is `msg s`. -/
inductive GoErr where
  | msg (s : String)
  | dontAck
  | deadlock
deriving DecidableEq, Repr

/-- A Go runtime fault (panic).  The only fault mode relevant here is
calling a nil function value. -/
inductive GoPanic where
  | nilDeref
deriving DecidableEq, Repr

/-- Modelled from the spec: calling a Go function value directly faults when
the value is nil; otherwise the call applies the function to the upstream
state `σ`. -/
def goCall {σ : Type} (f : Option (σ → σ)) (st : σ) : Except GoPanic σ :=
  match f with
  | none => .error .nilDeref
  | some g => .ok (g st)

/-- Modelled from the spec: a composite acknowledgment wraps one upstream
acknowledgment action with a required invocation count, shared across the
batches produced from one Send call.  The upstream action transforms an
observation state `σ` (instantiated with an invocation counter in the
theorems); a nil action is `none`. -/
structure CompositeAck (σ : Type) where
  action : Option (σ → σ)
  counter : Int

/-- Modelled from the spec: `ackFn action n` builds the composite
acknowledgment wrapping `action` with required invocation count `n`. -/
def ackFn {σ : Type} (action : Option (σ → σ)) (n : Int) : CompositeAck σ :=
  { action := action, counter := n }

/-- Modelled from the spec: one constituent confirmation.  It decrements the
shared counter; exactly when the counter reaches zero it fires the upstream
action — guarding against a nil action, whose invocation must be a no-op
rather than a fault — and otherwise it is a silent decrement. -/
def ackFnCall {σ : Type} (a : CompositeAck σ) (st : σ) :
    Except GoPanic (CompositeAck σ × σ) :=
  let c := a.counter - 1
  if c = 0 then
    if a.action.isSome then
      match goCall a.action st with
      | .error e => .error e
      | .ok st2 => .ok ({ a with counter := c }, st2)
    else
      .ok ({ a with counter := c }, st)
  else
    .ok ({ a with counter := c }, st)

/-- Modelled from the spec: resolving one constituent confirmation along the
do-not-acknowledge path: the shared counter is decremented but the upstream
action is never invoked, even when the counter reaches zero. -/
def ackFnResolveSilent {σ : Type} (a : CompositeAck σ) : CompositeAck σ :=
  { a with counter := a.counter - 1 }

/-- `k` successive constituent confirmations of a composite acknowledgment.
Since every constituent confirmation is the same counter decrement, any
arrival order of the constituents is some such sequence. -/
def ackFnCallN {σ : Type} : Nat → CompositeAck σ → σ → Except GoPanic (CompositeAck σ × σ)
  | 0, a, st => .ok (a, st)
  | k + 1, a, st =>
    match ackFnCall a st with
    | .error e => .error e
    | .ok p => ackFnCallN k p.1 p.2

/-- The effect of firing the upstream action once (a nil action is a no-op). -/
def fireUpstream {σ : Type} (act : Option (σ → σ)) (st : σ) : σ :=
  match act with
  | none => st
  | some g => g st

/-- Closed form of `k` constituent confirmations: no fault ever occurs, the
counter has been decremented `k` times, and the upstream action has fired
exactly once if the count `n` was reached (`1 ≤ n ≤ k`), otherwise not at
all. -/
theorem ackFnCallN_closed {σ : Type} (act : Option (σ → σ)) (n : Int) (st : σ) (k : Nat) :
    ackFnCallN k (ackFn act n) st =
      .ok (ackFn act (n - k), if 1 ≤ n ∧ n ≤ k then fireUpstream act st else st) := by
  induction k generalizing n st with
  | zero =>
    have h1 : ¬ (1 ≤ n ∧ n ≤ (0 : Int)) := by omega
    simp [ackFnCallN, h1]
  | succ k ih =>
    by_cases hn : n - 1 = 0
    · have hn1 : n = 1 := by omega
      subst hn1
      have hstep : ackFnCall (ackFn act 1) st = .ok (ackFn act 0, fireUpstream act st) := by
        cases act with
        | none => simp [ackFnCall, ackFn, fireUpstream]
        | some g => simp [ackFnCall, ackFn, goCall, fireUpstream]
      simp only [ackFnCallN, hstep]
      rw [ih]
      have h0 : ¬ ((1 : Int) ≤ 0 ∧ (0 : Int) ≤ (k : Int)) := by
        intro h
        omega
      have hcond : (1 : Int) ≤ 1 ∧ (1 : Int) ≤ ((k + 1 : Nat) : Int) := by
        refine ⟨le_refl 1, ?_⟩
        push_cast
        omega
      rw [if_neg h0, if_pos hcond]
      have harith : (0 : Int) - (k : Int) = 1 - ((k + 1 : Nat) : Int) := by
        push_cast
        ring
      rw [harith]
    · have hsil : ackFnCall (ackFn act n) st = .ok (ackFn act (n - 1), st) := by
        simp [ackFnCall, ackFn, hn]
      simp only [ackFnCallN, hsil]
      rw [ih]
      have hiff : (1 ≤ n - 1 ∧ n - 1 ≤ (k : Int)) ↔ (1 ≤ n ∧ n ≤ ((k + 1 : Nat) : Int)) := by
        push_cast
        omega
      have harith : n - 1 - (k : Int) = n - ((k + 1 : Nat) : Int) := by
        push_cast
        ring
      rw [harith]
      by_cases hc : 1 ≤ n ∧ n ≤ ((k + 1 : Nat) : Int)
      · rw [if_pos (hiff.mpr hc), if_pos hc]
      · rw [if_neg (fun h => hc (hiff.mp h)), if_neg hc]

/-- Extracts what can be observed of a composite-acknowledgment run when the
observation state counts upstream invocations: `none` when the run faulted,
otherwise the number of times the upstream action was invoked. -/
def upstreamInvocations (r : Except GoPanic (CompositeAck Nat × Nat)) : Option Nat :=
  match r with
  | .error _ => none
  | .ok p => some p.2

/-- C1: for every upstream acknowledgment action wrapped with a required
invocation count `n ≥ 1`, after `k` constituent confirmations (in any
arrival order — the constituents are indistinguishable counter decrements)
the upstream action has been invoked exactly once when `k ≥ n` and not at
all when `k < n`: it fires precisely when the `n`th confirmation arrives,
and never refires. -/
theorem ackFn_fires_exactly_at_nth (n : Nat) (hn : 1 ≤ n) (k : Nat) :
    upstreamInvocations
        (ackFnCallN k (ackFn (some fun c => c + 1) (n : Int)) 0) =
      some (if n ≤ k then 1 else 0) := by
  rw [ackFnCallN_closed]
  have hiff : (1 ≤ (n : Int) ∧ (n : Int) ≤ (k : Int)) ↔ n ≤ k := by
    constructor
    · intro h
      exact_mod_cast h.2
    · intro h
      exact ⟨by exact_mod_cast hn, by exact_mod_cast h⟩
  by_cases hk : n ≤ k
  · rw [if_pos (hiff.mpr hk), if_pos hk]
    rfl
  · rw [if_neg (fun h => hk (hiff.mp h)), if_neg hk]
    rfl

/-- Witness for C1 at `n = 2`, `k = 3`: three confirmations of a count-2
composite acknowledgment invoke the upstream action exactly once. -/
theorem ackFn_fires_exactly_at_nth_witness :
    upstreamInvocations
        (ackFnCallN 3 (ackFn (some fun c => c + 1) ((2 : Nat) : Int)) 0) =
      some 1 := by
  have h := ackFn_fires_exactly_at_nth 2 (by omega) 3
  simpa using h

/-- C5: for every invocation count `n ≥ 1`, a composite acknowledgment
wrapping a nil upstream action never faults: each of its `n` invocations,
and any extra invocations `k > n`, are no-ops leaving the observation state
untouched. -/
theorem nil_upstream_ack_never_faults (n : Nat) (hn : 1 ≤ n) (k : Nat) (st : Nat) :
    ackFnCallN k (ackFn (σ := Nat) none (n : Int)) st =
      .ok (ackFn none ((n : Int) - (k : Int)), st) := by
  rw [ackFnCallN_closed]
  by_cases hc : 1 ≤ (n : Int) ∧ (n : Int) ≤ (k : Int)
  · rw [if_pos hc]
    rfl
  · rw [if_neg hc]

/-- Witness for C5 at `n = 2`, `k = 5`: five invocations of a count-2 nil
composite acknowledgment succeed without fault and without effect. -/
theorem nil_upstream_ack_never_faults_witness :
    ackFnCallN 5 (ackFn (σ := Nat) none ((2 : Nat) : Int)) 7 =
      .ok (ackFn none (((2 : Nat) : Int) - ((5 : Nat) : Int)), 7) :=
  nil_upstream_ack_never_faults 2 (by omega) 5 7

/-- Modelled from the spec: the default error policy is "raise" — it always
returns the error it is given, unchanged. -/
def Raise : GoErr → Option GoErr := fun e => some e

/-- Modelled from the spec: the decision taken after one flush, from the
flush function's result and the error policy `errfn`: success or a `nil`
policy result acknowledge the batch; the distinguished do-not-acknowledge
sentinel resolves the counters without invoking upstream; any other policy
result is fatal. -/
inductive FlushDecision where
  | ackAll
  | dontAckAll
  | fatal (e : GoErr)
deriving DecidableEq, Repr

/-- Modelled from the spec: route one flush result through the error policy. -/
def decideFlush (errfn : GoErr → Option GoErr) (flushResult : Option GoErr) :
    FlushDecision :=
  match flushResult with
  | none => .ackAll
  | some e =>
    match errfn e with
    | none => .ackAll
    | some GoErr.dontAck => .dontAckAll
    | some e2 => .fatal e2

/-- Modelled from the spec: the engine state while resolving the batches of
one Send call — the shared composite acknowledgment, the upstream
observation state, and the first fatal error recorded (if any). -/
structure BatchRunState (σ : Type) where
  ack : CompositeAck σ
  upstream : σ
  fatal : Option GoErr

/-- Modelled from the spec: dispatch and resolve one closed batch.  After a
fatal decision no further batch is dispatched (its acknowledgment is left
unresolved); otherwise the flush result is routed through the error policy
and the batch's constituent confirmation of the composite acknowledgment is
performed — silently (without upstream invocation) on the
do-not-acknowledge path. -/
def dispatchBatch {σ : Type} (errfn : GoErr → Option GoErr) (s : BatchRunState σ)
    (flushResult : Option GoErr) : BatchRunState σ :=
  match s.fatal with
  | some _ => s
  | none =>
    match decideFlush errfn flushResult with
    | .ackAll =>
      match ackFnCall s.ack s.upstream with
      | .ok p => { s with ack := p.1, upstream := p.2 }
      | .error _ => s
    | .dontAckAll => { s with ack := ackFnResolveSilent s.ack }
    | .fatal e => { s with fatal := some e }

/-- Modelled from the spec: resolve the `K` batches produced from one Send
call, which share one composite acknowledgment of required count `K`; each
batch's flush result is routed through the error policy in dispatch order. -/
def runBatches {σ : Type} (errfn : GoErr → Option GoErr) (action : Option (σ → σ))
    (st0 : σ) (flushResults : List (Option GoErr)) : BatchRunState σ :=
  flushResults.foldl (dispatchBatch errfn)
    { ack := ackFn action (flushResults.length : Int), upstream := st0, fatal := none }

/-- Modelled from the spec: Run's return value for a drain that completes in
time — the first fatal error recorded, else `nil`. -/
def runReturn {σ : Type} (s : BatchRunState σ) : Option GoErr := s.fatal

/-- Folding `dispatchBatch` under the do-not-acknowledge policy over failing
flush results only decrements the shared counter. -/
theorem dispatch_dontAck_fold (errs : List GoErr) (act : Option (Nat → Nat))
    (m : Int) (st : Nat) :
    (errs.map some).foldl (dispatchBatch (fun _ => some GoErr.dontAck))
        { ack := ackFn act m, upstream := st, fatal := none } =
      { ack := ackFn act (m - errs.length), upstream := st, fatal := none } := by
  induction errs generalizing m with
  | nil => simp [ackFn]
  | cons e rest ih =>
    have hstep : dispatchBatch (fun _ => some GoErr.dontAck)
        { ack := ackFn act m, upstream := st, fatal := none } (some e) =
        { ack := ackFn act (m - 1), upstream := st, fatal := none } := by
      simp [dispatchBatch, decideFlush, ackFnResolveSilent, ackFn]
    simp only [List.map_cons, List.foldl_cons, hstep, ih]
    have : m - 1 - (rest.length : Int) = m - (((e :: rest).map some).length : Int) := by
      simp
      ring
    rw [this]
    simp

/-- C3: given an error policy that returns the distinguished
do-not-acknowledge signal, for every sequence of failing flushes the
composite acknowledgment counters are resolved down to zero without the
upstream acknowledgment action ever being invoked, and Run still terminates
cleanly (returns `nil`). -/
theorem dontAck_resolves_counters_without_upstream (errs : List GoErr) :
    (runBatches (fun _ => some GoErr.dontAck) (some fun c => c + 1) 0
          (errs.map some)).upstream = 0 ∧
    (runBatches (fun _ => some GoErr.dontAck) (some fun c => c + 1) 0
          (errs.map some)).ack.counter = 0 ∧
    runReturn (runBatches (fun _ => some GoErr.dontAck) (some fun c => c + 1) 0
          (errs.map some)) = none := by
  have h := dispatch_dontAck_fold errs (some fun c => c + 1)
    (((errs.map some).length : Nat) : Int) 0
  unfold runBatches runReturn
  rw [h]
  refine ⟨rfl, ?_, rfl⟩
  simp [ackFn]

/-- After a fatal decision is recorded, dispatching further batches changes
nothing: no batch is dispatched after a fatal decision. -/
theorem dispatch_after_fatal_fold {σ : Type} (errfn : GoErr → Option GoErr)
    (results : List (Option GoErr)) (a : CompositeAck σ) (st : σ) (e : GoErr) :
    results.foldl (dispatchBatch errfn) { ack := a, upstream := st, fatal := some e } =
      { ack := a, upstream := st, fatal := some e } := by
  induction results with
  | nil => rfl
  | cons r rest ih =>
    simp only [List.foldl_cons, dispatchBatch, ih]

/-- C4 counterexample: a flush function that always returns the
distinguished `ErrDontAck` sentinel error together with the default raise
policy makes Run return `nil` — not that error — because the raise policy
hands the sentinel back unchanged and the engine then takes the
do-not-acknowledge path instead of the fatal one. -/
theorem raise_with_dontAck_flush_error_returns_nil :
    Raise GoErr.dontAck = some GoErr.dontAck ∧
    runReturn (runBatches Raise (some fun c => c + 1) 0 [some GoErr.dontAck]) = none := by
  constructor
  · rfl
  · rfl

/-- C4 (amended): the default raise policy returns the error it is given,
unchanged; and whenever the flush function always returns a fixed error `e`
that is not the distinguished do-not-acknowledge sentinel, every execution
that flushes at least one batch makes Run return exactly `e` — the first
raise decision is fatal and no later batch is dispatched. -/
theorem raise_policy_fatal_flush_error (e : GoErr) (he : e ≠ GoErr.dontAck)
    (results : List (Option GoErr)) (hall : ∀ r ∈ results, r = some e)
    (hne : results ≠ []) :
    Raise e = some e ∧
    runReturn (runBatches Raise (some fun c => c + 1) 0 results) = some e := by
  refine ⟨rfl, ?_⟩
  match results, hne with
  | r :: rest, _ =>
    have hr : r = some e := hall r (List.mem_cons_self r rest)
    subst hr
    have hdec : decideFlush Raise (some e) = .fatal e := by
      cases e with
      | msg s => rfl
      | dontAck => exact absurd rfl he
      | deadlock => rfl
    have hstep : dispatchBatch Raise
        { ack := ackFn (some fun c => c + 1) (((some e :: rest).length : Nat) : Int),
          upstream := 0, fatal := none } (some e) =
        { ack := ackFn (some fun c => c + 1) (((some e :: rest).length : Nat) : Int),
          upstream := 0, fatal := some e } := by
      simp [dispatchBatch, hdec]
    unfold runBatches runReturn
    rw [List.foldl_cons, hstep, dispatch_after_fatal_fold]

/-- Witness for C4's amended theorem: one batch failing with the fixed error
"flush error" under the raise policy makes Run return exactly that error. -/
theorem raise_policy_fatal_flush_error_witness :
    Raise (GoErr.msg "flush error") = some (GoErr.msg "flush error") ∧
    runReturn (runBatches Raise (some fun c => c + 1) 0
        [some (GoErr.msg "flush error")]) = some (GoErr.msg "flush error") :=
  raise_policy_fatal_flush_error (GoErr.msg "flush error") (by simp)
    [some (GoErr.msg "flush error")] (by simp) (by simp)

/-- Modelled from the spec: ceiling division, for batch and wave counts. -/
def ceilDiv (a b : Nat) : Nat := (a + b - 1) / b

/-- Modelled from the spec: one Send call of `m` messages is split across
`ceil(m / FlushLength)` batches by the batcher's internal boundaries. -/
def numBatches (m flushLength : Nat) : Nat := ceilDiv m flushLength

/-- Modelled from the spec: with `k` closed batches, each taking `d` time
units to flush, executed by at most `p` parallel workers, the dispatched
batches cannot all resolve before `ceil(k / p) * d` time units have passed
after cancellation — the least possible drain time. -/
def minDrainTime (k p d : Nat) : Nat := ceilDiv k p * d

/-- Modelled from the spec's shutdown state machine: after cancellation, Run
terminates when the drain completes or when `StopTimeout` elapses, whichever
comes first; the result is the distinguished deadlock error if the timeout
fires first, else the first fatal error recorded, else `nil`. -/
def runOutcome (stopTimeout drainTime : Nat) (fatal : Option GoErr) : Option GoErr :=
  if stopTimeout < drainTime then some GoErr.deadlock else fatal

/-- C2: in the concrete scenario — `FlushLength = 2`, `FlushParallelism = 2`,
a flush that takes 110ms, `StopTimeout = 90ms`, three messages submitted in
one Send call and then the context cancelled — the two resulting batches
cannot drain within the 90ms grace window, so Run returns the distinguished
deadlock error whatever fatal error was or was not recorded; and in general
Run returns the deadlock error exactly when the drain outlasts
`StopTimeout`, and otherwise the recorded fatal error, or `nil` when there
is none (clean shutdown). -/
theorem batcher_deadlock_scenario_and_run_result (fatal : Option GoErr) :
    runOutcome 90 (minDrainTime (numBatches 3 2) 2 110) fatal = some GoErr.deadlock ∧
    (∀ st dt : Nat, st < dt → runOutcome st dt fatal = some GoErr.deadlock) ∧
    (∀ st dt : Nat, ∀ e : GoErr, dt ≤ st → runOutcome st dt (some e) = some e) ∧
    (∀ st dt : Nat, dt ≤ st → runOutcome st dt none = none) := by
  refine ⟨?_, ?_, ?_, ?_⟩
  · have h : minDrainTime (numBatches 3 2) 2 110 = 110 := by rfl
    rw [h]
    simp [runOutcome]
  · intro st dt h
    simp [runOutcome, h]
  · intro st dt e h
    simp [runOutcome, Nat.not_lt.mpr h]
  · intro st dt h
    simp [runOutcome, Nat.not_lt.mpr h]

/-- Witness for C2 at concrete inputs: the scenario yields the deadlock
error when no fatal error was recorded, and a drain of 5 units against a
stop timeout of 9 units returns the recorded outcome. -/
theorem batcher_deadlock_scenario_witness :
    runOutcome 90 (minDrainTime (numBatches 3 2) 2 110) none = some GoErr.deadlock ∧
    runOutcome 9 5 none = none := by
  have h := batcher_deadlock_scenario_and_run_result none
  exact ⟨h.1, h.2.2.2 9 5 (by omega)⟩

namespace Journald

/-- The well-known local path of the journald high-watermark file. -/
def hwmPath : String := "/tmp/kawad-journald-hwm"

/-- The fixed leading journalctl arguments built in recvLoop. -/
def journalBaseArgs : List String := ["journalctl", "-b", "-af", "-o", "json"]

/-- Embeds the argument construction in recvLoop: when the bytes read from
the high-watermark file are non-empty, resume after that cursor; otherwise
read all logs for this boot since the epoch. -/
def journalctlArgs (bts : String) : List String :=
  if 0 < bts.length then journalBaseArgs ++ ["--after-cursor", bts]
  else journalBaseArgs ++ ["--since", "1970-01-01 00:00:00"]

/-- Embeds `os.OpenFile(hwmPath, O_RDWR|O_CREATE, 0644)` followed by
`io.ReadAll`: the file state is `none` when absent; opening creates an
absent file empty; the contents read are returned together with the file
state after opening. -/
def openHwm (fs : Option String) : String × Option String :=
  (fs.getD "", some (fs.getD ""))

/-- Embeds the `ack` closure of recvLoop: truncate to length 0, seek to the
start, write the cursor (write errors are only logged).  The file then
holds exactly the acknowledged record's cursor. -/
def ackWrite (fs : Option String) (cursor : String) : Option String :=
  some cursor

/-- The start of recvLoop: open/create the high-watermark file, read it, and
build the journalctl invocation from its contents. -/
def recvStart (fs : Option String) : List String × Option String :=
  let p := openHwm fs
  (journalctlArgs p.1, p.2)

/-- C6 counterexample: with the high-watermark file present but empty — the
state an aborted or acknowledgment-free first run leaves behind, since
opening creates the file — the source reads all available history instead
of resuming after a cursor, contradicting the claim that only an absent
file means "start from the beginning". -/
theorem hwm_present_empty_starts_from_beginning :
    (openHwm none).2 = some "" ∧
    (recvStart (some "")).1 =
      ["journalctl", "-b", "-af", "-o", "json", "--since", "1970-01-01 00:00:00"] ∧
    "--after-cursor" ∉ (recvStart (some "")).1 := by
  refine ⟨rfl, rfl, ?_⟩
  decide

/-- C6 (amended): the journald source persists its resume position as a
plain-text cursor at the well-known path `/tmp/kawad-journald-hwm`; on
start, if the high-watermark file is absent **or empty** it reads all
available history, otherwise it resumes exactly after the non-empty cursor
it contains; and each record's acknowledgment rewrites the file to contain
exactly that record's cursor. -/
theorem hwm_cursor_persistence (fs : Option String) :
    hwmPath = "/tmp/kawad-journald-hwm" ∧
    ((fs.getD "").length = 0 →
      (recvStart fs).1 = journalBaseArgs ++ ["--since", "1970-01-01 00:00:00"]) ∧
    (0 < (fs.getD "").length →
      (recvStart fs).1 = journalBaseArgs ++ ["--after-cursor", fs.getD ""]) ∧
    (∀ cursor : String, ackWrite fs cursor = some cursor) := by
  refine ⟨rfl, ?_, ?_, fun _ => rfl⟩
  · intro h
    simp [recvStart, openHwm, journalctlArgs, h]
  · intro h
    simp [recvStart, openHwm, journalctlArgs, h, Nat.pos_iff_ne_zero.mp h]

/-- Witness for C6's amended theorem at a file containing the cursor "c17":
the source resumes after exactly that cursor, and acknowledging a record
with cursor "c18" rewrites the file to "c18". -/
theorem hwm_cursor_persistence_witness :
    (recvStart (some "c17")).1 =
      Journald.journalBaseArgs ++ ["--after-cursor", "c17"] ∧
    ackWrite (some "c17") "c18" = some "c18" := by
  have h := hwm_cursor_persistence (some "c17")
  exact ⟨h.2.2.1 (by decide), h.2.2.2 "c18"⟩

/-- A Go `time.Time` value as used by the source: either the zero value
`time.Time{}` or the result of `time.Unix(sec, nsec)`. -/
inductive GoTime where
  | zero
  | unix (sec nsec : Int)
deriving DecidableEq, Repr

/-- Accumulating base-10 digit scan; fails at the first non-digit. -/
def digitsVal (cs : List Char) (acc : Nat) : Option Nat :=
  match cs with
  | [] => some acc
  | c :: rest =>
    if c.isDigit then digitsVal rest (acc * 10 + (c.toNat - 48)) else none

/-- Embeds `strconv.ParseInt(s, 10, 64)`: an optional sign, at least one
decimal digit, and a value within the int64 range; anything else is a parse
error (`none`). -/
def parseInt64 (s : String) : Option Int :=
  let p : Bool × List Char :=
    match s.data with
    | '-' :: rest => (true, rest)
    | '+' :: rest => (false, rest)
    | l => (false, l)
  match p.2 with
  | [] => none
  | ds =>
    match digitsVal ds 0 with
    | none => none
    | some v =>
      if p.1 then
        if v ≤ 2 ^ 63 then some (-(v : Int)) else none
      else
        if v ≤ 2 ^ 63 - 1 then some ((v : Int)) else none

/-- Embeds `parseUnixMicroseconds`: parse the decimal microsecond count,
then split it into seconds and nanoseconds with Go's truncating integer
division and remainder, producing `time.Unix(sec, nsec)`. -/
def parseUnixMicroseconds (s : String) : Option GoTime :=
  match parseInt64 s with
  | none => none
  | some microseconds =>
    some (GoTime.unix (microseconds.tdiv 1000000) ((microseconds.tmod 1000000) * 1000))

/-- The fields of `autoGeneratedJournal` that the receive loop reads. -/
structure AutoGeneratedJournal where
  message : String
  realtimeTimestamp : String
  syslogIdentifier : String
  hostname : String
  cursor : String
deriving DecidableEq, Repr

/-- The event value forwarded on the source's message channel. -/
structure Event where
  timestamp : GoTime
  sourceType : String
  rawLog : String
deriving DecidableEq, Repr

/-- What one iteration of the scanner loop does with one input line:
either the record is skipped (with a log line) and the loop continues, or
an event is forwarded (possibly also with a log line), whose
acknowledgment will write the given cursor. -/
inductive LineStep where
  | skip (logMsg : String)
  | emit (logMsg : Option String) (ev : Event) (ackCursor : String)
deriving DecidableEq, Repr

/-- Embeds one iteration of the scanner loop in recvLoop.  The result of
`json.Unmarshal` on the line is supplied as an argument (`none` exactly when
unmarshalling fails).  On an unmarshal error the loop logs "unmarshaling"
and skips the record; otherwise the timestamp string is parsed — on failure
the loop logs "parsing timestamp" but still forwards the record with the
zero timestamp — and the record is forwarded with its cursor bound into the
acknowledgment. -/
def recvStep (unmarshalled : Option AutoGeneratedJournal) (raw : String) : LineStep :=
  match unmarshalled with
  | none => .skip "unmarshaling"
  | some log =>
    match parseUnixMicroseconds log.realtimeTimestamp with
    | none =>
      .emit (some "parsing timestamp")
        { timestamp := GoTime.zero, sourceType := "journald", rawLog := raw } log.cursor
    | some ts =>
      .emit none { timestamp := ts, sourceType := "journald", rawLog := raw } log.cursor

/-- The events forwarded by the scanner loop over a whole input, each line
given with its unmarshal result: the loop never stops early — every line is
processed by `recvStep` and the loop continues with the rest. -/
def recvLoopEmits (lines : List (Option AutoGeneratedJournal × String)) : List Event :=
  match lines with
  | [] => []
  | (u, raw) :: rest =>
    match recvStep u raw with
    | .skip _ => recvLoopEmits rest
    | .emit _ ev _ => ev :: recvLoopEmits rest

/-- C7 counterexample: a record that is valid JSON but whose
`__REALTIME_TIMESTAMP` fails to parse is logged and then **forwarded** with
the zero timestamp — it is not skipped, contradicting the claim that every
record failing to parse or decode is skipped. -/
theorem timestamp_parse_error_record_forwarded :
    parseUnixMicroseconds "notanumber" = none ∧
    recvStep
        (some { message := "m"
                realtimeTimestamp := "notanumber"
                syslogIdentifier := ""
                hostname := ""
                cursor := "c1" }) "raw" =
      .emit (some "parsing timestamp")
        { timestamp := GoTime.zero, sourceType := "journald", rawLog := "raw" } "c1" := by
  constructor
  · rfl
  · rfl

/-- C7 (amended): a record that fails JSON unmarshalling is logged and
skipped; a record whose timestamp fails to parse is logged and still
forwarded, with the zero timestamp; and in both cases the loop continues
with the remaining records — a parse or decode error on a single record is
never fatal to the loop. -/
theorem record_parse_errors_nonfatal (raw : String)
    (rest : List (Option AutoGeneratedJournal × String))
    (rec : AutoGeneratedJournal)
    (hts : parseUnixMicroseconds rec.realtimeTimestamp = none) :
    recvStep none raw = .skip "unmarshaling" ∧
    recvLoopEmits ((none, raw) :: rest) = recvLoopEmits rest ∧
    recvStep (some rec) raw =
      .emit (some "parsing timestamp")
        { timestamp := GoTime.zero, sourceType := "journald", rawLog := raw } rec.cursor ∧
    recvLoopEmits ((some rec, raw) :: rest) =
      { timestamp := GoTime.zero, sourceType := "journald", rawLog := raw }
        :: recvLoopEmits rest := by
  have hstep : recvStep (some rec) raw =
      .emit (some "parsing timestamp")
        { timestamp := GoTime.zero, sourceType := "journald", rawLog := raw } rec.cursor := by
    simp [recvStep, hts]
  refine ⟨rfl, rfl, hstep, ?_⟩
  simp [recvLoopEmits, hstep]

/-- Witness for C7's amended theorem on a concrete record with an
unparsable timestamp, followed by one well-formed record: the bad record is
forwarded with the zero timestamp and the loop goes on to the next one. -/
theorem record_parse_errors_nonfatal_witness :
    recvStep none "junk" = .skip "unmarshaling" ∧
    recvLoopEmits [(none, "junk")] = recvLoopEmits [] ∧
    recvStep (some { message := "m", realtimeTimestamp := "", syslogIdentifier := "", hostname := "", cursor := "c2" }) "line" =
      .emit (some "parsing timestamp")
        { timestamp := GoTime.zero, sourceType := "journald", rawLog := "line" } "c2" ∧
    recvLoopEmits [(some { message := "m", realtimeTimestamp := "", syslogIdentifier := "", hostname := "", cursor := "c2" }, "line")] =
      [{ timestamp := GoTime.zero, sourceType := "journald", rawLog := "line" }] := by
  have h1 := record_parse_errors_nonfatal "junk" []
    { message := "m", realtimeTimestamp := "", syslogIdentifier := "", hostname := "", cursor := "c2" } (by rfl)
  have h2 := record_parse_errors_nonfatal "line" []
    { message := "m", realtimeTimestamp := "", syslogIdentifier := "", hostname := "", cursor := "c2" } (by rfl)
  refine ⟨h1.1, h1.2.1, h2.2.2.1, ?_⟩
  simpa [recvLoopEmits] using h2.2.2.2

end Journald

namespace Windows

/-- One `Data` element of the XML EventData section: a `Name` attribute
(possibly empty when absent) and the inner XML as value. -/
structure Data where
  name : String
  value : String
deriving DecidableEq, Repr

/-- The empty `Correlation` element, a fieldless struct in both the XML and
JSON shapes (copied wholesale by the transcoder). -/
structure Correlation where
deriving DecidableEq, Repr

/-- `xmlEvent.System.Provider`. -/
structure XmlProvider where
  name : String
  guid : String
deriving DecidableEq, Repr

/-- `xmlEvent.System.TimeCreated`; the `time.Time` field is kept abstract in
the type parameter `τ` since the transcoder only copies it. -/
structure XmlTimeCreated (τ : Type) where
  systemTime : τ
deriving DecidableEq, Repr

/-- `xmlEvent.System.Execution`. -/
structure XmlExecution where
  processID : String
  threadID : String
deriving DecidableEq, Repr

/-- `xmlEvent.System.Security`. -/
structure XmlSecurity where
  userID : String
deriving DecidableEq, Repr

/-- `xmlEvent.System`. -/
structure XmlSystem (τ : Type) where
  provider : XmlProvider
  eventID : String
  version : String
  level : String
  task : String
  opcode : String
  keywords : String
  timeCreated : XmlTimeCreated τ
  eventRecordID : String
  correlation : Correlation
  execution : XmlExecution
  channel : String
  computer : String
  security : XmlSecurity
deriving DecidableEq, Repr

/-- `xmlEvent.EventData`, the ordered list of `Data` elements. -/
structure XmlEventData where
  data : List Data
deriving DecidableEq, Repr

/-- `xmlEvent`: the decoded Windows event.  `υ` is the type of the untyped
`UserData` map, kept abstract since the transcoder only copies it. -/
structure XmlEvent (τ υ : Type) where
  eventData : XmlEventData
  userData : υ
  system : XmlSystem τ
deriving DecidableEq, Repr

/-- `jsonEvent.Event.System.Provider` (JSON keys `name`, `guid`). -/
structure JsonProvider where
  name : String
  guid : String
deriving DecidableEq, Repr

/-- `jsonEvent.Event.System.TimeCreated` (JSON key `systemTime`). -/
structure JsonTimeCreated (τ : Type) where
  systemTime : τ
deriving DecidableEq, Repr

/-- `jsonEvent.Event.System.Execution` (JSON keys `processId`, `threadId`). -/
structure JsonExecution where
  processID : String
  threadID : String
deriving DecidableEq, Repr

/-- `jsonEvent.Event.System.Security` (JSON key `userId`). -/
structure JsonSecurity where
  userID : String
deriving DecidableEq, Repr

/-- `jsonEvent.Event.System`: the fixed `system` subtree of the JSON shape
(keys `provider`, `eventId`, `version`, `level`, `task`, `opcode`,
`keywords`, `timeCreated`, `eventRecordId`, `correlation`, `execution`,
`channel`, `computer`, `security`). -/
structure JsonSystem (τ : Type) where
  provider : JsonProvider
  eventID : String
  version : String
  level : String
  task : String
  opcode : String
  keywords : String
  timeCreated : JsonTimeCreated τ
  eventRecordID : String
  correlation : Correlation
  execution : JsonExecution
  channel : String
  computer : String
  security : JsonSecurity
deriving DecidableEq, Repr

/-- `jsonEvent.Event`: the fixed shape
eventDataMap? / eventData? / userData? / system.  The map is modelled as a
lookup function, a nil Go map being the everywhere-`none` function. -/
structure JsonEventInner (τ υ : Type) where
  eventDataMap : String → Option String
  eventData : List String
  userData : υ
  system : JsonSystem τ

/-- `jsonEvent`: the document is one object with the single key `event`. -/
structure JsonEvent (τ υ : Type) where
  event : JsonEventInner τ υ

/-- Go map insertion `m[k] = v`: later insertions overwrite earlier ones. -/
def goMapInsert (m : String → Option String) (k v : String) : String → Option String :=
  fun x => if x = k then some v else m x

/-- Embeds the loop over `xe.EventData.Data` in `ToJSONEvent`: an entry with
a non-empty Name is stored in the map under its name; an unnamed entry is
appended, in order, to the list. -/
def buildEventData : List Data → (String → Option String) → List String →
    (String → Option String) × List String
  | [], m, l => (m, l)
  | d :: rest, m, l =>
    if d.name ≠ "" then buildEventData rest (goMapInsert m d.name d.value) l
    else buildEventData rest m (l ++ [d.value])

/-- Embeds `ToJSONEvent`: start from `newJSONEvent` (empty map, nil list),
run the event-data loop, copy `UserData` wholesale and each `System` field
individually. -/
def toJSONEvent {τ υ : Type} (xe : XmlEvent τ υ) : JsonEvent τ υ :=
  let p := buildEventData xe.eventData.data (fun _ => none) []
  { event :=
    { eventDataMap := p.1
      eventData := p.2
      userData := xe.userData
      system :=
      { provider := { name := xe.system.provider.name, guid := xe.system.provider.guid }
        eventID := xe.system.eventID
        version := xe.system.version
        level := xe.system.level
        task := xe.system.task
        opcode := xe.system.opcode
        keywords := xe.system.keywords
        timeCreated := { systemTime := xe.system.timeCreated.systemTime }
        eventRecordID := xe.system.eventRecordID
        correlation := xe.system.correlation
        execution := { processID := xe.system.execution.processID
                       threadID := xe.system.execution.threadID }
        channel := xe.system.channel
        computer := xe.system.computer
        security := { userID := xe.system.security.userID } } } }

/-- The value of the last entry of `ds` whose (non-empty) name is `k`. -/
def lastNamedValue : List Data → String → Option String
  | [], _ => none
  | d :: rest, k =>
    match lastNamedValue rest k with
    | some v => some v
    | none => if d.name = k ∧ d.name ≠ "" then some d.value else none

/-- Invariant of the event-data loop: the list accumulates the unnamed
values in order and the map answers with the last named entry, falling back
to the initial map. -/
theorem buildEventData_closed (ds : List Data) (m : String → Option String)
    (l : List String) :
    (buildEventData ds m l).2 = l ++ (ds.filter (fun d => d.name == "")).map Data.value ∧
    ∀ k : String, (buildEventData ds m l).1 k =
      match lastNamedValue ds k with
      | some v => some v
      | none => m k := by
  induction ds generalizing m l with
  | nil => simp [buildEventData, lastNamedValue]
  | cons d rest ih =>
    by_cases hd : d.name = ""
    · have hstep : buildEventData (d :: rest) m l = buildEventData rest m (l ++ [d.value]) := by
        simp [buildEventData, hd]
      have hih := ih m (l ++ [d.value])
      refine ⟨?_, ?_⟩
      · rw [hstep, hih.1]
        simp [hd]
      · intro k
        rw [hstep, hih.2 k]
        have hcond : ¬ (d.name = k ∧ d.name ≠ "") := by
          intro h
          exact h.2 hd
        simp only [lastNamedValue, hcond, if_false]
        cases lastNamedValue rest k with
        | some v => rfl
        | none => simp
    · have hstep : buildEventData (d :: rest) m l =
          buildEventData rest (goMapInsert m d.name d.value) l := by
        simp [buildEventData, hd]
      have hih := ih (goMapInsert m d.name d.value) l
      refine ⟨?_, ?_⟩
      · rw [hstep, hih.1]
        have : (d.name == "") = false := by
          simpa using hd
        simp [this]
      · intro k
        rw [hstep, hih.2 k]
        cases hrest : lastNamedValue rest k with
        | some v => simp [lastNamedValue, hrest]
        | none =>
          simp only [lastNamedValue, hrest, goMapInsert]
          by_cases hk : d.name = k
          · subst hk
            simp [hd]
          · have hcond2 : ¬ (d.name = k ∧ d.name ≠ "") := fun h => hk h.1
            have hks : ¬ k = d.name := fun h => hk h.symm
            simp [hcond2, hks]

/-- The `system` subtree of the fixed JSON shape, each field filled from the
corresponding XML field (the spec's description of the transcoding). -/
def jsonSystemOfXml {τ : Type} (s : XmlSystem τ) : JsonSystem τ :=
  { provider := { name := s.provider.name, guid := s.provider.guid }
    eventID := s.eventID
    version := s.version
    level := s.level
    task := s.task
    opcode := s.opcode
    keywords := s.keywords
    timeCreated := { systemTime := s.timeCreated.systemTime }
    eventRecordID := s.eventRecordID
    correlation := s.correlation
    execution := { processID := s.execution.processID, threadID := s.execution.threadID }
    channel := s.channel
    computer := s.computer
    security := { userID := s.security.userID } }

/-- C8: for every Windows event, the transcoding produces the fixed shape —
one `event` object holding `eventDataMap`, `eventData`, `userData` and the
`system` subtree with every field copied from the XML — where every
event-data entry with a non-empty name is stored in `eventDataMap` under
its name (the last such entry winning, per Go map insertion), and every
unnamed entry is appended, in order, to the `eventData` list. -/
theorem toJSONEvent_shape {τ υ : Type} (xe : XmlEvent τ υ) :
    (toJSONEvent xe).event.eventData =
      (xe.eventData.data.filter (fun d => d.name == "")).map Data.value ∧
    (∀ k : String, (toJSONEvent xe).event.eventDataMap k = lastNamedValue xe.eventData.data k) ∧
    (toJSONEvent xe).event.userData = xe.userData ∧
    (toJSONEvent xe).event.system = jsonSystemOfXml xe.system := by
  have h := buildEventData_closed xe.eventData.data (fun _ => none) []
  refine ⟨?_, ?_, rfl, rfl⟩
  · have h1 := h.1
    simpa [toJSONEvent] using h1
  · intro k
    have h2 := h.2 k
    have : (toJSONEvent xe).event.eventDataMap k =
        (buildEventData xe.eventData.data (fun _ => none) []).1 k := rfl
    rw [this, h2]
    cases lastNamedValue xe.eventData.data k with
    | none => rfl
    | some v => rfl

end Windows

namespace Mqtt

/-- The MQTT adapter's configuration (`Opts`), fixed at construction time. -/
structure Opts where
  broker : String
  clientID : String
  topic : String
  userName : String
  password : String
  qos : Nat
  retained : Bool
deriving DecidableEq, Repr

/-- A pipeline message (`kawa.Message[[]byte]`): a payload value plus
optional per-message Key and Topic routing metadata. -/
structure Message where
  value : String
  key : String
  topic : String
deriving DecidableEq, Repr

/-- One publish request handed to the MQTT client:
`client.Publish(topic, qos, retained, payload)`. -/
structure PubReq where
  topic : String
  qos : Nat
  retained : Bool
  payload : String
deriving DecidableEq, Repr

/-- The publish request built for message `m` inside `Destination.Send`:
the topic, QoS and retained flag come from the configuration; the payload
is the message's value. -/
def pubReqOf (cfg : Opts) (m : Message) : PubReq :=
  { topic := cfg.topic, qos := cfg.qos, retained := cfg.retained, payload := m.value }

/-- Embeds the loop of `Destination.Send` from publish index `i` on.  The
MQTT client is abstracted by `tokenErr`, giving for each successive publish
the error its token reports after `Wait` (`none` = confirmed sent).  The
result records the publish requests issued in order and the error returned:
on the first token error the loop returns it immediately, leaving the
remaining messages unattempted. -/
def sendFrom (cfg : Opts) (tokenErr : Nat → Option GoErr) (i : Nat) :
    List Message → List PubReq × Option GoErr
  | [] => ([], none)
  | m :: rest =>
    match tokenErr i with
    | some e => ([pubReqOf cfg m], some e)
    | none =>
      let p := sendFrom cfg tokenErr (i + 1) rest
      (pubReqOf cfg m :: p.1, p.2)

/-- Embeds `Destination.Send(ctx, ack, msgs...)`.  The `ack` action
(modelled as a transformer of an observation state, applied zero times) and
the acknowledgment state are threaded through so the theorems can observe
that the loop body never invokes it: the state is returned untouched. -/
def send (cfg : Opts) (tokenErr : Nat → Option GoErr) (ack : Nat → Nat)
    (ackState : Nat) (msgs : List Message) :
    (List PubReq × Option GoErr) × Nat :=
  (sendFrom cfg tokenErr 0 msgs, ackState)

/-- C9 counterexample: a `Send` call on the MQTT destination in which every
publish is confirmed sent (the client reports no token error) returns `nil`
— all messages confirmed — yet the ack action has not been invoked (the
acknowledgment observation state is still 0, where one invocation would
have made it 1), contradicting the claim that `ack` is invoked once all
messages of the call are confirmed sent. -/
theorem mqtt_send_success_ack_not_invoked :
    (send { broker := "tcp://b", clientID := "c", topic := "t", userName := "",
            password := "", qos := 1, retained := false }
        (fun _ => none) (fun n => n + 1) 0
        [{ value := "hi", key := "k", topic := "other" }]).1.2 = none ∧
    (send { broker := "tcp://b", clientID := "c", topic := "t", userName := "",
            password := "", qos := 1, retained := false }
        (fun _ => none) (fun n => n + 1) 0
        [{ value := "hi", key := "k", topic := "other" }]).2 = 0 := by
  constructor
  · rfl
  · rfl

/-- When the client confirms every publish, the send loop issues one
request per message, in order, and reports no error. -/
theorem sendFrom_all_ok (cfg : Opts) (tokenErr : Nat → Option GoErr) (i : Nat)
    (msgs : List Message) (hok : ∀ j : Nat, j < msgs.length → tokenErr (i + j) = none) :
    sendFrom cfg tokenErr i msgs = (msgs.map (pubReqOf cfg), none) := by
  induction msgs generalizing i with
  | nil => rfl
  | cons m rest ih =>
    have h0 : tokenErr i = none := by
      have := hok 0 (by simp)
      simpa using this
    have hrest : ∀ j : Nat, j < rest.length → tokenErr (i + 1 + j) = none := by
      intro j hj
      have := hok (j + 1) (by simpa using Nat.succ_lt_succ hj)
      have harith : i + (j + 1) = i + 1 + j := by omega
      rwa [harith] at this
    simp [sendFrom, h0, ih (i + 1) hrest]

/-- When the `j`th publish is the first to fail, the send loop issues the
first `j + 1` requests, in order, and returns that error immediately. -/
theorem sendFrom_first_error (cfg : Opts) (tokenErr : Nat → Option GoErr) (i : Nat)
    (msgs : List Message) (j : Nat) (e : GoErr)
    (hok : ∀ t : Nat, t < j → tokenErr (i + t) = none)
    (herr : tokenErr (i + j) = some e) (hj : j < msgs.length) :
    sendFrom cfg tokenErr i msgs = ((msgs.take (j + 1)).map (pubReqOf cfg), some e) := by
  induction msgs generalizing i j with
  | nil => exact absurd hj (by simp)
  | cons m rest ih =>
    cases j with
    | zero =>
      have h0 : tokenErr i = some e := by simpa using herr
      simp [sendFrom, h0]
    | succ t =>
      have h0 : tokenErr i = none := by
        have := hok 0 (Nat.succ_pos t)
        simpa using this
      have hok2 : ∀ s : Nat, s < t → tokenErr (i + 1 + s) = none := by
        intro s hs
        have := hok (s + 1) (Nat.succ_lt_succ hs)
        have harith : i + (s + 1) = i + 1 + s := by omega
        rwa [harith] at this
      have herr2 : tokenErr (i + 1 + t) = some e := by
        have harith : i + (t + 1) = i + 1 + t := by omega
        rwa [harith] at herr
      have hj2 : t < rest.length := by simpa using Nat.lt_of_succ_lt_succ hj
      simp [sendFrom, h0, ih (i + 1) t hok2 herr2 hj2]

/-- The send loop is determined by the message payload values alone: the
per-message Key and Topic metadata never influence it. -/
theorem sendFrom_value_determined (cfg : Opts) (tokenErr : Nat → Option GoErr) :
    ∀ (msgs : List Message) (i : Nat) (msgs' : List Message),
      msgs.map Message.value = msgs'.map Message.value →
      sendFrom cfg tokenErr i msgs = sendFrom cfg tokenErr i msgs' := by
  intro msgs
  induction msgs with
  | nil =>
    intro i msgs' h
    cases msgs' with
    | nil => rfl
    | cons _ _ => simp at h
  | cons m rest ih =>
    intro i msgs' h
    cases msgs' with
    | nil => simp at h
    | cons m2 rest2 =>
      simp only [List.map_cons, List.cons.injEq] at h
      have hval : m.value = m2.value := h.1
      have hreq : pubReqOf cfg m = pubReqOf cfg m2 := by
        simp [pubReqOf, hval]
      have hrest := ih (i + 1) rest2 h.2
      cases hti : tokenErr i with
      | some e => simp [sendFrom, hti, hreq]
      | none => simp [sendFrom, hti, hreq, hrest]

/-- C9 (amended): every call to the MQTT destination's `Send` is synchronous
— it publishes the messages one at a time in the order given, waiting on
each token, and returns `nil` exactly when every message of the call was
confirmed sent — but the `ack` action is never invoked by `Send`, not even
when all messages are confirmed. -/
theorem mqtt_send_synchronous_never_acks (cfg : Opts) (tokenErr : Nat → Option GoErr)
    (ack : Nat → Nat) (ackState : Nat) (msgs : List Message)
    (hok : ∀ i : Nat, i < msgs.length → tokenErr i = none) :
    (send cfg tokenErr ack ackState msgs).1.1 = msgs.map (pubReqOf cfg) ∧
    (send cfg tokenErr ack ackState msgs).1.2 = none ∧
    (send cfg tokenErr ack ackState msgs).2 = ackState := by
  have h := sendFrom_all_ok cfg tokenErr 0 msgs (by
    intro j hj
    simpa using hok j hj)
  unfold send
  rw [h]
  exact ⟨rfl, rfl, rfl⟩

/-- Witness for C9's amended theorem: two messages, both confirmed — both
published in order, `nil` returned, acknowledgment state untouched. -/
theorem mqtt_send_synchronous_never_acks_witness :
    (send { broker := "tcp://b", clientID := "c", topic := "t", userName := "",
            password := "", qos := 1, retained := false }
        (fun _ => none) (fun n => n + 1) 0
        [{ value := "a", key := "", topic := "" }, { value := "b", key := "", topic := "" }]).1.1 =
      [{ topic := "t", qos := 1, retained := false, payload := "a" },
       { topic := "t", qos := 1, retained := false, payload := "b" }] ∧
    (send { broker := "tcp://b", clientID := "c", topic := "t", userName := "",
            password := "", qos := 1, retained := false }
        (fun _ => none) (fun n => n + 1) 0
        [{ value := "a", key := "", topic := "" }, { value := "b", key := "", topic := "" }]).1.2 =
      none ∧
    (send { broker := "tcp://b", clientID := "c", topic := "t", userName := "",
            password := "", qos := 1, retained := false }
        (fun _ => none) (fun n => n + 1) 0
        [{ value := "a", key := "", topic := "" }, { value := "b", key := "", topic := "" }]).2 =
      0 := by
  have h := mqtt_send_synchronous_never_acks
    { broker := "tcp://b", clientID := "c", topic := "t", userName := "",
      password := "", qos := 1, retained := false }
    (fun _ => none) (fun n => n + 1) 0
    [{ value := "a", key := "", topic := "" }, { value := "b", key := "", topic := "" }]
    (fun _ _ => rfl)
  exact ⟨by rw [h.1]; rfl, h.2.1, h.2.2⟩

/-- C10: for every call to the MQTT destination's `Send`, each message is
turned into a publish of its value to the topic configured at construction
time, with the configured QoS and retained flag — the per-message Key and
Topic metadata never influence the result — the messages are published one
at a time in the order given, and the first publish error is returned
immediately without attempting the remaining messages. -/
theorem mqtt_send_publish_semantics (cfg : Opts) (tokenErr : Nat → Option GoErr)
    (ack : Nat → Nat) (ackState : Nat) (msgs : List Message) :
    (∀ m : Message, pubReqOf cfg m =
      { topic := cfg.topic, qos := cfg.qos, retained := cfg.retained, payload := m.value }) ∧
    ((∀ i : Nat, i < msgs.length → tokenErr i = none) →
      (send cfg tokenErr ack ackState msgs).1 = (msgs.map (pubReqOf cfg), none)) ∧
    (∀ (j : Nat) (e : GoErr), (∀ t : Nat, t < j → tokenErr t = none) →
      tokenErr j = some e → j < msgs.length →
      (send cfg tokenErr ack ackState msgs).1 =
        ((msgs.take (j + 1)).map (pubReqOf cfg), some e)) ∧
    (∀ msgs' : List Message, msgs.map Message.value = msgs'.map Message.value →
      send cfg tokenErr ack ackState msgs = send cfg tokenErr ack ackState msgs') := by
  refine ⟨fun m => rfl, ?_, ?_, ?_⟩
  · intro hok
    unfold send
    rw [sendFrom_all_ok cfg tokenErr 0 msgs (by
      intro j hj
      simpa using hok j hj)]
  · intro j e hok herr hj
    unfold send
    rw [sendFrom_first_error cfg tokenErr 0 msgs j e (by
        intro t ht
        simpa using hok t ht)
      (by simpa using herr) hj]
  · intro msgs' h
    unfold send
    rw [sendFrom_value_determined cfg tokenErr msgs 0 msgs' h]

/-- Witness for C10: three messages against a client whose second publish
fails — the first two are published to the configured topic in order, the
error is returned at once, the third message is never attempted, and
altering the routing metadata changes nothing. -/
theorem mqtt_send_publish_semantics_witness :
    (send { broker := "tcp://b", clientID := "c", topic := "t", userName := "",
            password := "", qos := 2, retained := true }
        (fun i => if i = 1 then some (GoErr.msg "pub") else none) (fun n => n + 1) 0
        [{ value := "a", key := "ka", topic := "ta" },
         { value := "b", key := "kb", topic := "tb" },
         { value := "c", key := "kc", topic := "tc" }]).1 =
      ([{ topic := "t", qos := 2, retained := true, payload := "a" },
        { topic := "t", qos := 2, retained := true, payload := "b" }],
       some (GoErr.msg "pub")) ∧
    send { broker := "tcp://b", clientID := "c", topic := "t", userName := "",
            password := "", qos := 2, retained := true }
        (fun i => if i = 1 then some (GoErr.msg "pub") else none) (fun n => n + 1) 0
        [{ value := "a", key := "ka", topic := "ta" },
         { value := "b", key := "kb", topic := "tb" },
         { value := "c", key := "kc", topic := "tc" }] =
      send { broker := "tcp://b", clientID := "c", topic := "t", userName := "",
             password := "", qos := 2, retained := true }
        (fun i => if i = 1 then some (GoErr.msg "pub") else none) (fun n => n + 1) 0
        [{ value := "a", key := "", topic := "" },
         { value := "b", key := "", topic := "" },
         { value := "c", key := "", topic := "" }] := by
  have h := mqtt_send_publish_semantics
    { broker := "tcp://b", clientID := "c", topic := "t", userName := "",
      password := "", qos := 2, retained := true }
    (fun i => if i = 1 then some (GoErr.msg "pub") else none) (fun n => n + 1) 0
    [{ value := "a", key := "ka", topic := "ta" },
     { value := "b", key := "kb", topic := "tb" },
     { value := "c", key := "kc", topic := "tc" }]
  constructor
  · have h2 := h.2.2.1 1 (GoErr.msg "pub")
      (by
        intro t ht
        interval_cases t
        · rfl)
      (by rfl) (by simp)
    rw [h2]
    rfl
  · exact h.2.2.2
      [{ value := "a", key := "", topic := "" },
       { value := "b", key := "", topic := "" },
       { value := "c", key := "", topic := "" }] (by rfl)

end Mqtt

end Cheetah
